import Mathlib

/-!
Shallow embedding of the room-based chat server (server-side `ChatRoom` and
`ChatSession`, client-side TUI `State` reducer) together with proofs about the
properties its specification states.

Conventions of the embedding:
* side-effecting Rust methods become pure functions returning the updated
  structure together with the list of externally visible effects they perform,
  in program order;
* the tokio broadcast channel of a room is represented by the list of events a
  call publishes on it; a subscription is represented by the list of outcomes
  successive `recv()` calls on it produce;
* `HashMap`s become association lists; `VecDeque`/`CircularQueue` become lists
  (front = oldest) with explicit capacity-based eviction;
* fallible calls return `Except`; a Rust panic (`unwrap` on `None`) is `none`.
-/

namespace RustChat

/-- `SessionAndUserId` (src/server: room_manager). A connection is identified by
`session_id`; one user may own several concurrent sessions. -/
structure SessionAndUserId where
  session_id : String
  user_id : String
deriving DecidableEq, Repr

/-- `RoomParticipationStatus` from the `comms::event` crate. -/
inductive RoomParticipationStatus
  | Joined
  | Left
deriving DecidableEq, Repr

/-- `RoomParticipationBroadcastEvent { user_id, room, status }`. -/
structure RoomParticipationBroadcastEvent where
  user_id : String
  room : String
  status : RoomParticipationStatus
deriving DecidableEq, Repr

/-- `UserJoinedRoomReplyEvent { room, users }`: the RoomJoined reply. -/
structure UserJoinedRoomReplyEvent where
  room : String
  users : List String
deriving DecidableEq, Repr

/-- `UserMessageEvent { room, user_id, content }`. -/
structure UserMessageEvent where
  room : String
  user_id : String
  content : String
deriving DecidableEq, Repr

/-- `HistoryResponseEvent { room, history }`. -/
structure HistoryResponseEvent where
  room : String
  history : List (String × String)
deriving DecidableEq, Repr

/-- Room metadata item carried by the login event. -/
structure RoomDetail where
  name : String
  description : String
deriving DecidableEq, Repr

/-- `LoginSuccessfulEvent { user_id, rooms }`. -/
structure LoginSuccessfulEvent where
  user_id : String
  rooms : List RoomDetail
deriving DecidableEq, Repr

/-- The `comms::event::Event` enum (the variants the embedded code handles). -/
inductive Event
  | LoginSuccessful (e : LoginSuccessfulEvent)
  | RoomParticipation (e : RoomParticipationBroadcastEvent)
  | UserJoinedRoom (e : UserJoinedRoomReplyEvent)
  | UserMessage (e : UserMessageEvent)
  | HistoryResponse (e : HistoryResponseEvent)
deriving DecidableEq, Repr

/-- `ChatRoomMetadata { name, description }` (chat_room.rs). -/
structure ChatRoomMetadata where
  name : String
  description : String
deriving DecidableEq, Repr

/-- `ChatMessage { user_id, content }` (chat_room.rs). -/
structure ChatMessage where
  user_id : String
  content : String
deriving DecidableEq, Repr

/-- `UserSessionHandle`: the membership capability a session holds per joined
room (room name + identity; the broadcast sender clone is implicit in the
effect model). -/
structure UserSessionHandle where
  room : String
  session_and_user_id : SessionAndUserId
deriving DecidableEq, Repr

/-- Modelled from the spec: `UserSessionHandle::send_message` (the
user_session_handle.rs source is not included). Spec 4.4: `publish(content)`
sends a `UserMessage` event `{room, userId, content}` on the room's broadcast
channel, fire-and-forget. -/
def UserSessionHandle.send_message (h : UserSessionHandle) (content : String) : Event :=
  Event.UserMessage ⟨h.room, h.session_and_user_id.user_id, content⟩

/-- Modelled from the spec: the Participation Registry (`UserRegistry`,
user_registry.rs is not included). Spec 4.1: a mapping from Identity to
liveness; represented by the list of currently registered identities. -/
structure UserRegistry where
  identities : List SessionAndUserId
deriving DecidableEq, Repr

/-- `UserRegistry::new()`: empty registry. -/
def UserRegistry.new : UserRegistry := ⟨[]⟩

/-- Whether some registered identity has the given user id. -/
def UserRegistry.containsUser (r : UserRegistry) (uid : String) : Bool :=
  r.identities.any fun s => s.user_id == uid

/-- Modelled from the spec: `insert(identity) -> bool` registers the identity
and returns `true` iff this is the first live identity for `identity.userId`
(the user transitioned from absent to present). -/
def UserRegistry.insert (r : UserRegistry) (s : SessionAndUserId) : Bool × UserRegistry :=
  (!(r.containsUser s.user_id), ⟨s :: r.identities⟩)

/-- Modelled from the spec: `remove(identity) -> bool` unregisters the identity
and returns `true` iff no other identity with the same userId remains. -/
def UserRegistry.remove (r : UserRegistry) (s : SessionAndUserId) : Bool × UserRegistry :=
  let rest := r.identities.erase s
  (!(UserRegistry.containsUser ⟨rest⟩ s.user_id), ⟨rest⟩)

/-- `get_unique_user_ids`: the derived set of distinct userIds present. -/
def UserRegistry.get_unique_user_ids (r : UserRegistry) : List String :=
  (r.identities.map fun s => s.user_id).dedup

/-- `ChatRoom` (chat_room.rs): metadata, broadcast sender, registry, bounded
history. The broadcast channel itself is represented by the event lists the
operations return. -/
structure ChatRoom where
  metadata : ChatRoomMetadata
  user_registry : UserRegistry
  message_history : List ChatMessage
deriving DecidableEq, Repr

/-- `ChatRoom::new`: fresh registry and empty history. -/
def ChatRoom.new (metadata : ChatRoomMetadata) : ChatRoom :=
  ⟨metadata, UserRegistry.new, []⟩

/-- `ChatRoom::get_unique_user_ids`. -/
def ChatRoom.get_unique_user_ids (room : ChatRoom) : List String :=
  room.user_registry.get_unique_user_ids

/-- `ChatRoom::join` (chat_room.rs lines 57-82): creates a fresh handle,
inserts the identity into the registry, and if the insert reports a new user
publishes one `RoomParticipation(Joined)` event. Returns the updated room, the
events published on the broadcast channel by this call, and the handle. -/
def ChatRoom.join (room : ChatRoom) (s : SessionAndUserId) :
    ChatRoom × List Event × UserSessionHandle :=
  let user_session_handle : UserSessionHandle := ⟨room.metadata.name, s⟩
  let inserted := room.user_registry.insert s
  let events :=
    if inserted.1 then
      [Event.RoomParticipation ⟨s.user_id, room.metadata.name, RoomParticipationStatus.Joined⟩]
    else []
  ({ room with user_registry := inserted.2 }, events, user_session_handle)

/-- `ChatRoom::add_message_to_history` (chat_room.rs lines 85-91): pop the
front if the history holds 10 or more entries, then push the new message at the
back. Returns the updated room and the events published (none). -/
def ChatRoom.add_message_to_history (room : ChatRoom) (user_id content : String) :
    ChatRoom × List Event :=
  let message : ChatMessage := ⟨user_id, content⟩
  let hist :=
    if room.message_history.length ≥ 10 then room.message_history.tail
    else room.message_history
  ({ room with message_history := hist ++ [message] }, [])

/-- `ChatRoom::get_message_history` (chat_room.rs lines 94-99): snapshot of the
history as (user_id, content) pairs, front (oldest) first. -/
def ChatRoom.get_message_history (room : ChatRoom) : List (String × String) :=
  room.message_history.map fun msg => (msg.user_id, msg.content)

/-- `ChatRoom::leave` (chat_room.rs lines 103-113): consumes the handle,
removes its identity from the registry, and if the remove reports the user's
last identity publishes one `RoomParticipation(Left)` event. -/
def ChatRoom.leave (room : ChatRoom) (h : UserSessionHandle) : ChatRoom × List Event :=
  let removed := room.user_registry.remove h.session_and_user_id
  let events :=
    if removed.1 then
      [Event.RoomParticipation
        ⟨h.session_and_user_id.user_id, room.metadata.name, RoomParticipationStatus.Left⟩]
    else []
  ({ room with user_registry := removed.2 }, events)

/-- Fold a list of (user_id, content) pairs into a room's history. -/
def ChatRoom.addAll (room : ChatRoom) (msgs : List (String × String)) : ChatRoom :=
  msgs.foldl (fun r p => (r.add_message_to_history p.1 p.2).1) room

/-! ### Session side (chat_session.rs) -/

/-- `UserCommand` (comms::command): the room-management commands the session
handles. The handler's wildcard arm covers any other variant. -/
inductive UserCommand
  | JoinRoom (room : String)
  | SendMessage (room : String) (content : String)
  | LeaveRoom (room : String)
  | GetHistory (room : String)
deriving DecidableEq, Repr

/-- Outcome of one `broadcast::Receiver::recv().await` call on a room
subscription: a received event, a `RecvError::Lagged(n)` signal (the subscriber
fell behind by n skipped events and is resynchronized), or
`RecvError::Closed`. -/
inductive RecvResult
  | ok (e : Event)
  | lagged (n : Nat)
  | closed
deriving DecidableEq, Repr

/-- The forwarding-task body spawned per joined room (chat_session.rs):
`while let Ok(event) = broadcast_rx.recv().await { let _ = mpsc_tx.send(event).await; }`
applied to the successive outcomes of `recv()`. Returns the events the task
forwards onto the session's outbound queue before its loop exits. The
`while let Ok` pattern exits the loop on any `Err`, including `Lagged`. -/
def forwardLoop : List RecvResult → List Event
  | [] => []
  | RecvResult.ok e :: rest => e :: forwardLoop rest
  | RecvResult.lagged _ :: _ => []
  | RecvResult.closed :: _ => []

/-- Errors surfaced by `handle_user_command` (anyhow): the session's own
"already joined" error, or an error propagated from a room-manager call. -/
inductive HandlerError
  | alreadyJoined (room : String)
  | envError (msg : String)
deriving DecidableEq, Repr

/-- The `RoomManager` the session calls into (room_manager source not under
src/; the session treats it as an oracle). Each field gives the result of the
corresponding fallible call; `join_room` returns the membership handle and the
distinct-userIds snapshot taken inside the call (the broadcast receiver is
modelled separately by `RecvResult` streams). -/
structure RoomManagerEnv where
  join_room : String → SessionAndUserId → Except String (UserSessionHandle × List String)
  add_room_history : UserSessionHandle → String → Except String Unit
  get_room_history : UserSessionHandle → Except String (List (String × String))
  drop_user_session_handle : UserSessionHandle → Except String Unit

/-- Externally visible effects of the session handler, in program order. -/
inductive SessionAction
  | enqueue (e : Event)
  | spawnForwarder (room : String)
  | recordHistory (h : UserSessionHandle) (content : String)
  | publish (e : Event)
  | dropHandle (h : UserSessionHandle)
  | abortTask (room : String)
deriving DecidableEq, Repr

/-- `ChatSession` state: identity and the joined-rooms map
(roomName -> membership handle; the per-room `AbortHandle` is identified by the
room name in `SessionAction.abortTask`). -/
structure ChatSession where
  session_and_user_id : SessionAndUserId
  joined_rooms : List (String × UserSessionHandle)
deriving DecidableEq, Repr

/-- `HashMap::get` on the joined-rooms map. -/
def assocFind (r : String) : List (String × UserSessionHandle) → Option UserSessionHandle
  | [] => none
  | (k, v) :: rest => if k = r then some v else assocFind r rest

/-- `HashMap::remove` on the joined-rooms map (drops the binding for the key). -/
def assocErase (r : String) : List (String × UserSessionHandle) → List (String × UserSessionHandle)
  | [] => []
  | (k, v) :: rest => if k = r then rest else (k, v) :: assocErase r rest

/-- Result of one session entry point: the state after the call, the effects
performed (in order) before it returned, and its `anyhow::Result`. -/
structure StepResult where
  state : ChatSession
  actions : List SessionAction
  res : Except HandlerError Unit
deriving Repr

/-- `ChatSession::handle_user_command` (chat_session.rs lines 43-111),
translated arm by arm:
* JoinRoom: error if already in the map; otherwise `join_room`, send the
  `UserJoinedRoom` reply on the mpsc queue, spawn the forwarding task, insert
  the handle into the map;
* SendMessage: if joined, `add_room_history` (propagating failure), then
  fire-and-forget `send_message`;
* LeaveRoom: if joined, remove the map entry, drop the handle, abort the task;
* GetHistory: if joined, fetch history and enqueue a `HistoryResponse`. -/
def ChatSession.handle_user_command (env : RoomManagerEnv) (st : ChatSession)
    (cmd : UserCommand) : StepResult :=
  match cmd with
  | UserCommand.JoinRoom room =>
    if (assocFind room st.joined_rooms).isSome then
      ⟨st, [], Except.error (HandlerError.alreadyJoined room)⟩
    else
      match env.join_room room st.session_and_user_id with
      | Except.error e => ⟨st, [], Except.error (HandlerError.envError e)⟩
      | Except.ok (user_session_handle, user_ids) =>
        ⟨{ st with joined_rooms := (room, user_session_handle) :: st.joined_rooms },
         [SessionAction.enqueue (Event.UserJoinedRoom ⟨room, user_ids⟩),
          SessionAction.spawnForwarder room],
         Except.ok ()⟩
  | UserCommand.SendMessage room content =>
    match assocFind room st.joined_rooms with
    | none => ⟨st, [], Except.ok ()⟩
    | some user_session_handle =>
      match env.add_room_history user_session_handle content with
      | Except.error e =>
        ⟨st, [SessionAction.recordHistory user_session_handle content],
         Except.error (HandlerError.envError e)⟩
      | Except.ok () =>
        ⟨st, [SessionAction.recordHistory user_session_handle content,
              SessionAction.publish (user_session_handle.send_message content)],
         Except.ok ()⟩
  | UserCommand.LeaveRoom room =>
    match assocFind room st.joined_rooms with
    | none => ⟨st, [], Except.ok ()⟩
    | some user_session_handle =>
      let st2 : ChatSession := { st with joined_rooms := assocErase room st.joined_rooms }
      match env.drop_user_session_handle user_session_handle with
      | Except.error e =>
        ⟨st2, [SessionAction.dropHandle user_session_handle],
         Except.error (HandlerError.envError e)⟩
      | Except.ok () =>
        ⟨st2, [SessionAction.dropHandle user_session_handle, SessionAction.abortTask room],
         Except.ok ()⟩
  | UserCommand.GetHistory room =>
    match assocFind room st.joined_rooms with
    | none => ⟨st, [], Except.ok ()⟩
    | some user_session_handle =>
      match env.get_room_history user_session_handle with
      | Except.error e => ⟨st, [], Except.error (HandlerError.envError e)⟩
      | Except.ok history =>
        ⟨st, [SessionAction.enqueue (Event.HistoryResponse ⟨room, history⟩)],
         Except.ok ()⟩

/-- The loop body of `ChatSession::leave_all_rooms`: iterate over the
pre-collected room names, removing each from the map and running
`cleanup_room` (drop the handle at the room manager, then abort the forwarding
task), propagating the first failure. -/
def leaveLoop (env : RoomManagerEnv) (st : ChatSession) (acc : List SessionAction) :
    List String → StepResult
  | [] => ⟨st, acc, Except.ok ()⟩
  | room :: rest =>
    match assocFind room st.joined_rooms with
    | none => leaveLoop env st acc rest
    | some user_session_handle =>
      let st2 : ChatSession := { st with joined_rooms := assocErase room st.joined_rooms }
      match env.drop_user_session_handle user_session_handle with
      | Except.error e =>
        ⟨st2, acc ++ [SessionAction.dropHandle user_session_handle],
         Except.error (HandlerError.envError e)⟩
      | Except.ok () =>
        leaveLoop env st2
          (acc ++ [SessionAction.dropHandle user_session_handle, SessionAction.abortTask room])
          rest

/-- `ChatSession::leave_all_rooms` (chat_session.rs lines 114-126): collect the
joined room names, then leave each in turn. -/
def ChatSession.leave_all_rooms (env : RoomManagerEnv) (st : ChatSession) : StepResult :=
  leaveLoop env st [] (st.joined_rooms.map fun p => p.1)

/-- The events the handler itself enqueues on the session's outbound mpsc
queue, in order. -/
def enqueuedEvents (acts : List SessionAction) : List Event :=
  acts.filterMap fun a =>
    match a with
    | SessionAction.enqueue e => some e
    | _ => none

/-- The full sequence of events a JoinRoom command puts on the session's
outbound queue: first those the handler enqueues directly, then those the
spawned forwarding task forwards from the room's broadcast subscription (the
task is spawned only after the handler's own send completed, so its output
follows). `recvs` is the outcome stream of the new subscription. -/
def joinOutbound (env : RoomManagerEnv) (st : ChatSession) (room : String)
    (recvs : List RecvResult) : List Event :=
  let r := st.handle_user_command env (UserCommand.JoinRoom room)
  enqueuedEvents r.actions ++
    (if SessionAction.spawnForwarder room ∈ r.actions then forwardLoop recvs else [])

/-! ### Client side (tui state.rs) -/

/-- `MessageBoxItem` (state.rs). -/
inductive MessageBoxItem
  | message (user_id content : String)
  | notif (s : String)
deriving DecidableEq, Repr

/-- `MAX_MESSAGES_TO_STORE_PER_ROOM`. -/
def MAX_MESSAGES_TO_STORE_PER_ROOM : Nat := 100

/-- `CircularQueue::push` with capacity 100: evict the oldest item when full.
The queue is represented oldest-first. -/
def pushMessage (msgs : List MessageBoxItem) (m : MessageBoxItem) : List MessageBoxItem :=
  if msgs.length ≥ MAX_MESSAGES_TO_STORE_PER_ROOM then msgs.tail ++ [m] else msgs ++ [m]

/-- `RoomData` (state.rs). `users` is a `HashSet`, modelled as a
duplicate-free insertion list. -/
structure RoomData where
  name : String
  description : String
  users : List String
  messages : List MessageBoxItem
  has_joined : Bool
  has_unread : Bool
  first_time : Bool
deriving DecidableEq, Repr

/-- `RoomData::new(name, description)` over `Default`. -/
def RoomData.new (name description : String) : RoomData :=
  ⟨name, description, [], [], false, false, true⟩

/-- `HashSet::insert`. -/
def insertUser (users : List String) (u : String) : List String :=
  if u ∈ users then users else users ++ [u]

/-- `ServerConnectionStatus` (state.rs). `Uninit` stands for the source's
starting variant (the default status before connecting). -/
inductive ServerConnectionStatus
  | Uninit
  | Connecting
  | Connected (addr : String)
  | Errored (err : String)
deriving DecidableEq, Repr

/-- The TUI `State` (state.rs): connection status, active room, user id, the
room_data_map (`HashMap<String, RoomData>` as an association list) and the
timer. -/
structure State where
  server_connection_status : ServerConnectionStatus
  active_room : Option String
  user_id : String
  room_data_map : List (String × RoomData)
  timer : Nat
deriving DecidableEq, Repr

/-- `HashMap::get` on the room_data_map. -/
def mapGet (r : String) : List (String × RoomData) → Option RoomData
  | [] => none
  | (k, v) :: rest => if k = r then some v else mapGet r rest

/-- Write-back of a `get_mut` borrow: replace the value bound to the key. -/
def mapSet (r : String) (v : RoomData) : List (String × RoomData) → List (String × RoomData)
  | [] => []
  | (k, w) :: rest => if k = r then (k, v) :: rest else (k, w) :: mapSet r v rest

/-- `State::handle_server_event` (state.rs lines 104-176), arm by arm. A Rust
panic (the `.unwrap()` on a missing room_data_map entry in the UserJoinedRoom
and UserMessage arms) is `none`; every non-panicking path is `some` of the
updated state. -/
def State.handle_server_event (st : State) (ev : Event) : Option State :=
  match ev with
  | Event.LoginSuccessful e =>
    some { st with
      user_id := e.user_id,
      room_data_map := e.rooms.map fun r => (r.name, RoomData.new r.name r.description) }
  | Event.RoomParticipation e =>
    match mapGet e.room st.room_data_map with
    | none => some st
    | some rd =>
      let rd1 :=
        match e.status with
        | RoomParticipationStatus.Joined =>
          { rd with
            users := insertUser rd.users e.user_id,
            has_joined := if e.user_id = st.user_id then true else rd.has_joined }
        | RoomParticipationStatus.Left =>
          { rd with
            users := rd.users.erase e.user_id,
            has_joined := if e.user_id = st.user_id then false else rd.has_joined }
      let verb :=
        match e.status with
        | RoomParticipationStatus.Joined => "joined"
        | RoomParticipationStatus.Left => "left"
      let rd2 :=
        { rd1 with
          messages := pushMessage rd1.messages
            (MessageBoxItem.notif (e.user_id ++ " has " ++ verb ++ " the room")) }
      some { st with room_data_map := mapSet e.room rd2 st.room_data_map }
  | Event.UserJoinedRoom e =>
    match mapGet e.room st.room_data_map with
    | none => none
    | some rd =>
      some { st with
        room_data_map := mapSet e.room { rd with users := e.users } st.room_data_map }
  | Event.UserMessage e =>
    match mapGet e.room st.room_data_map with
    | none => none
    | some rd =>
      let rd1 := { rd with
        messages := pushMessage rd.messages (MessageBoxItem.message e.user_id e.content) }
      let rd2 :=
        match st.active_room with
        | some active_room => if active_room ≠ e.room then { rd1 with has_unread := true } else rd1
        | none => rd1
      some { st with room_data_map := mapSet e.room rd2 st.room_data_map }
  | Event.HistoryResponse e =>
    match mapGet e.room st.room_data_map with
    | none => some st
    | some rd =>
      let msgs := e.history.foldl (fun acc p => pushMessage acc (MessageBoxItem.message p.1 p.2))
        rd.messages
      some { st with
        room_data_map :=
          mapSet e.room { rd with messages := msgs, first_time := false } st.room_data_map }

/-! ### Helper lemmas -/

lemma addAll_nil (room : ChatRoom) : room.addAll [] = room := rfl

lemma addAll_cons (room : ChatRoom) (p : String × String) (l : List (String × String)) :
    room.addAll (p :: l) = ((room.add_message_to_history p.1 p.2).1).addAll l := rfl

/-- The history after folding in a message list: the concatenation of the old
history and the new messages, with everything but the last 10 entries
dropped. -/
lemma addAll_history (msgs : List (String × String)) :
    ∀ (room : ChatRoom), room.message_history.length ≤ 10 →
      (room.addAll msgs).message_history =
        (room.message_history ++ msgs.map fun p => ChatMessage.mk p.1 p.2).drop
          (room.message_history.length + msgs.length - 10) := by
  induction msgs with
  | nil =>
    intro room hlen
    simp [addAll_nil, Nat.sub_eq_zero_of_le hlen]
  | cons p l ih =>
    intro room hlen
    rw [addAll_cons]
    by_cases hc : room.message_history.length ≥ 10
    · have h10 : room.message_history.length = 10 := le_antisymm hlen hc
      obtain ⟨a, t, ht⟩ : ∃ a t, room.message_history = a :: t := by
        cases hmh : room.message_history with
        | nil => rw [hmh] at h10; simp at h10
        | cons a t => exact ⟨a, t, rfl⟩
      have htl : t.length = 9 := by
        rw [ht] at h10; simpa using h10
      have hist : (room.add_message_to_history p.1 p.2).1.message_history =
          t ++ [ChatMessage.mk p.1 p.2] := by
        simp [ChatRoom.add_message_to_history, ht, htl]
      have hside : (t ++ [ChatMessage.mk p.1 p.2]).length ≤ 10 := by
        simp only [List.length_append, List.length_cons, List.length_nil]
        omega
      rw [ih _ (by rw [hist]; exact hside), hist, ht]
      have e1 : (t ++ [ChatMessage.mk p.1 p.2]).length + l.length - 10 = l.length := by
        simp only [List.length_append, List.length_cons, List.length_nil, htl]
        omega
      have e2 : (a :: t).length + (p :: l).length - 10 = l.length + 1 := by
        simp only [List.length_cons, htl]
        omega
      rw [e1, e2]
      simp only [List.cons_append, List.drop_succ_cons, List.append_assoc,
        List.singleton_append, List.map_cons, List.nil_append]
    · have hlt : room.message_history.length + 1 ≤ 10 := by omega
      have hist : (room.add_message_to_history p.1 p.2).1.message_history =
          room.message_history ++ [ChatMessage.mk p.1 p.2] := by
        simp [ChatRoom.add_message_to_history, if_neg hc]
      have hside : (room.message_history ++ [ChatMessage.mk p.1 p.2]).length ≤ 10 := by
        simp only [List.length_append, List.length_cons, List.length_nil]
        omega
      rw [ih _ (by rw [hist]; exact hside), hist]
      have e1 : (room.message_history ++ [ChatMessage.mk p.1 p.2]).length + l.length - 10 =
          room.message_history.length + (p :: l).length - 10 := by
        simp only [List.length_append, List.length_cons, List.length_nil]
        omega
      rw [e1]
      simp only [List.append_assoc, List.singleton_append, List.map_cons]

/-- The registry's membership test agrees with the derived distinct-userId
set. -/
lemma containsUser_eq_mem (r : UserRegistry) (uid : String) :
    r.containsUser uid = decide (uid ∈ r.get_unique_user_ids) := by
  rw [Bool.eq_iff_iff]
  simp [UserRegistry.containsUser, UserRegistry.get_unique_user_ids, List.mem_dedup,
    List.any_eq_true, List.mem_map]

/-! ### Claims -/

/-- C1 (code_bug evidence): the forwarding task spawned by `handle_user_command`
is the loop `while let Ok(event) = broadcast_rx.recv().await { ... }`; when a
`recv` reports the lag/overflow signal (`RecvError::Lagged`), the loop exits at
once and forwards none of the subsequent events of the subscription, for every
continuation `rest` — it does not continue past the signal as the
specification requires. -/
theorem forwardLoop_stops_at_lag (n : Nat) (rest : List RecvResult) :
    forwardLoop (RecvResult.lagged n :: rest) = [] := rfl

/-- C2: starting from an empty history, after folding in `msgs` the room's
`get_message_history` returns exactly the last `min(n, 10)` recorded
`(user_id, content)` pairs in insertion order, oldest first (the suffix of
`msgs` obtained by dropping all but the last 10), and the history length never
exceeds 10. -/
theorem get_message_history_last_ten (m : ChatRoomMetadata) (msgs : List (String × String)) :
    ((ChatRoom.new m).addAll msgs).get_message_history = msgs.drop (msgs.length - 10) ∧
    ((ChatRoom.new m).addAll msgs).message_history.length ≤ 10 := by
  have h := addAll_history msgs (ChatRoom.new m) (by simp [ChatRoom.new])
  have hnew : (ChatRoom.new m).message_history = [] := rfl
  rw [hnew] at h
  simp only [List.nil_append, List.length_nil, Nat.zero_add] at h
  constructor
  · rw [ChatRoom.get_message_history, h, ← List.map_drop, List.map_map]
    have hcomp : ((fun msg : ChatMessage => (msg.user_id, msg.content)) ∘
        fun p : String × String => ChatMessage.mk p.1 p.2) = id := by
      funext p
      rfl
    rw [hcomp, List.map_id]
  · rw [h, List.length_drop, List.length_map]
    omega

/-- C3: `join` publishes exactly one `RoomParticipation(Joined)` event carrying
the joining userId and the room name iff the registry insert reports a first
live identity for that userId (equivalently, iff the userId is absent from the
distinct-userId set at the time of the call), and `leave` publishes exactly one
`RoomParticipation(Left)` event iff the registry remove reports that no
identity with that userId remains (the userId is absent from the distinct set
after the removal); otherwise no participation event is published. -/
theorem participation_event_iff_transition (room : ChatRoom) (s : SessionAndUserId)
    (h : UserSessionHandle) :
    ((room.join s).2.1 =
      if (room.user_registry.insert s).1 then
        [Event.RoomParticipation ⟨s.user_id, room.metadata.name, RoomParticipationStatus.Joined⟩]
      else []) ∧
    ((room.user_registry.insert s).1 = !(decide (s.user_id ∈ room.get_unique_user_ids))) ∧
    ((room.leave h).2 =
      if (room.user_registry.remove h.session_and_user_id).1 then
        [Event.RoomParticipation
          ⟨h.session_and_user_id.user_id, room.metadata.name, RoomParticipationStatus.Left⟩]
      else []) ∧
    ((room.user_registry.remove h.session_and_user_id).1 =
      !(decide (h.session_and_user_id.user_id ∈
          (room.user_registry.remove h.session_and_user_id).2.get_unique_user_ids))) := by
  refine ⟨rfl, ?_, rfl, ?_⟩
  · exact congrArg Bool.not (containsUser_eq_mem room.user_registry s.user_id)
  · exact congrArg Bool.not
      (containsUser_eq_mem ⟨room.user_registry.identities.erase h.session_and_user_id⟩
        h.session_and_user_id.user_id)

/-- C9: `add_message_to_history` mutates only the message-history buffer: the
room's metadata, participation registry and its distinct-userId set are
unchanged, no event is published, and the history is extended by exactly the
new message (evicting the oldest entry when at capacity). -/
theorem add_message_to_history_frame (room : ChatRoom) (u c : String) :
    (room.add_message_to_history u c).1.metadata = room.metadata ∧
    (room.add_message_to_history u c).1.user_registry = room.user_registry ∧
    (room.add_message_to_history u c).1.get_unique_user_ids = room.get_unique_user_ids ∧
    (room.add_message_to_history u c).2 = [] ∧
    (room.add_message_to_history u c).1.message_history =
      (if room.message_history.length ≥ 10 then room.message_history.tail
       else room.message_history) ++ [ChatMessage.mk u c] :=
  ⟨rfl, rfl, rfl, rfl, rfl⟩

/-- C4: handling a `JoinRoom` command for a room already present in the
joined-room map returns the `AlreadyJoined` error, leaves the session state
(including the stored membership handle and abort handle) unchanged, performs
no effect (no room join, no enqueue, no spawn), for every room-manager
environment. -/
theorem join_room_already_joined (env : RoomManagerEnv) (st : ChatSession) (room : String)
    (hj : (assocFind room st.joined_rooms).isSome = true) :
    st.handle_user_command env (UserCommand.JoinRoom room) =
      ⟨st, [], Except.error (HandlerError.alreadyJoined room)⟩ := by
  simp [ChatSession.handle_user_command, hj]

/-- C5: for a successful `JoinRoom` on a room not yet joined, the sequence of
events reaching the session's outbound queue starts with the synthesized
`RoomJoined` reply carrying the room name and the distinct-userIds snapshot
returned by `join_room`, followed by (hence before) everything the newly
spawned forwarding task forwards from the room's broadcast subscription. -/
theorem join_reply_precedes_forwarded (env : RoomManagerEnv) (st : ChatSession)
    (room : String) (h : UserSessionHandle) (users : List String) (recvs : List RecvResult)
    (hnj : assocFind room st.joined_rooms = none)
    (hjr : env.join_room room st.session_and_user_id = Except.ok (h, users)) :
    joinOutbound env st room recvs =
      Event.UserJoinedRoom ⟨room, users⟩ :: forwardLoop recvs := by
  simp [joinOutbound, ChatSession.handle_user_command, hnj, hjr, enqueuedEvents]

/-- C6: for a `SendMessage` on a joined room, the handler first records the
message in the room's history through the room manager and then publishes the
`UserMessage` through the membership handle, in that order; if the recording
call fails, the command fails with the propagated error and the publish is not
attempted. -/
theorem send_message_records_then_publishes (env : RoomManagerEnv) (st : ChatSession)
    (room content : String) (handle : UserSessionHandle)
    (hj : assocFind room st.joined_rooms = some handle) :
    (env.add_room_history handle content = Except.ok () →
      st.handle_user_command env (UserCommand.SendMessage room content) =
        ⟨st, [SessionAction.recordHistory handle content,
              SessionAction.publish (handle.send_message content)], Except.ok ()⟩) ∧
    (∀ e, env.add_room_history handle content = Except.error e →
      st.handle_user_command env (UserCommand.SendMessage room content) =
        ⟨st, [SessionAction.recordHistory handle content],
         Except.error (HandlerError.envError e)⟩) := by
  constructor
  · intro hok
    simp [ChatSession.handle_user_command, hj, hok]
  · intro e he
    simp [ChatSession.handle_user_command, hj, he]

/-- C7: `SendMessage` and `GetHistory` for a room absent from the joined-room
map succeed as silent no-ops: the state is unchanged and no effect of any kind
(no history recording, no publish, no enqueue) is performed, for every
room-manager environment. -/
theorem not_joined_commands_are_noops (env : RoomManagerEnv) (st : ChatSession)
    (room content : String)
    (hn : assocFind room st.joined_rooms = none) :
    st.handle_user_command env (UserCommand.SendMessage room content) =
      ⟨st, [], Except.ok ()⟩ ∧
    st.handle_user_command env (UserCommand.GetHistory room) =
      ⟨st, [], Except.ok ()⟩ := by
  constructor <;> simp [ChatSession.handle_user_command, hn]

lemma assocFind_cons_self (k : String) (v : UserSessionHandle)
    (t : List (String × UserSessionHandle)) : assocFind k ((k, v) :: t) = some v := by
  simp [assocFind]

lemma assocErase_cons_self (k : String) (v : UserSessionHandle)
    (t : List (String × UserSessionHandle)) : assocErase k ((k, v) :: t) = t := by
  simp [assocErase]

/-- Invariant of the `leave_all_rooms` loop: on overall success the map is
emptied, previously accumulated actions are kept, and every joined room's
handle is dropped and task aborted. -/
lemma leaveLoop_ok_spec (env : RoomManagerEnv) (sid : SessionAndUserId) :
    ∀ (l : List (String × UserSessionHandle)) (acc : List SessionAction),
      (leaveLoop env ⟨sid, l⟩ acc (l.map fun p => p.1)).res = Except.ok () →
      (leaveLoop env ⟨sid, l⟩ acc (l.map fun p => p.1)).state.joined_rooms = [] ∧
      (∀ a ∈ acc, a ∈ (leaveLoop env ⟨sid, l⟩ acc (l.map fun p => p.1)).actions) ∧
      (∀ p ∈ l,
        SessionAction.dropHandle p.2 ∈ (leaveLoop env ⟨sid, l⟩ acc (l.map fun p => p.1)).actions ∧
        SessionAction.abortTask p.1 ∈ (leaveLoop env ⟨sid, l⟩ acc (l.map fun p => p.1)).actions) := by
  intro l
  induction l with
  | nil =>
    intro acc _
    refine ⟨rfl, ?_, ?_⟩
    · intro a ha
      exact ha
    · intro p hp
      exact absurd hp (List.not_mem_nil p)
  | cons q t ih =>
    intro acc
    obtain ⟨k, h⟩ := q
    simp only [List.map_cons, leaveLoop, assocFind_cons_self, assocErase_cons_self]
    cases hdrop : env.drop_user_session_handle h with
    | error e =>
      intro hres
      simp at hres
    | ok u =>
      cases u
      intro hres
      have hrec := ih (acc ++ [SessionAction.dropHandle h, SessionAction.abortTask k]) hres
      refine ⟨hrec.1, ?_, ?_⟩
      · intro a ha
        exact hrec.2.1 a (by simp [ha])
      · intro p hp
        rcases List.mem_cons.mp hp with hph | hpt
        · subst hph
          exact ⟨hrec.2.1 _ (by simp), hrec.2.1 _ (by simp)⟩
        · exact hrec.2.2 p hpt

/-- C8: when `leave_all_rooms` returns successfully the joined-room map is
empty, and for every room that was in the map the membership handle was
released to the room manager (`drop_user_session_handle` consumed it) and the
forwarding task's abort handle was invoked. -/
theorem leave_all_rooms_cleanup (env : RoomManagerEnv) (st : ChatSession)
    (hok : (st.leave_all_rooms env).res = Except.ok ()) :
    (st.leave_all_rooms env).state.joined_rooms = [] ∧
    ∀ p ∈ st.joined_rooms,
      SessionAction.dropHandle p.2 ∈ (st.leave_all_rooms env).actions ∧
      SessionAction.abortTask p.1 ∈ (st.leave_all_rooms env).actions := by
  obtain ⟨sid, l⟩ := st
  have h := leaveLoop_ok_spec env sid l [] hok
  exact ⟨h.1, h.2.2⟩

/-- The TUI state before any login event: empty room_data_map. -/
def clientState0 : State :=
  ⟨ServerConnectionStatus.Uninit, none, "", [], 0⟩

/-- C10: the client reducer is not total and not uniform across event kinds for
unknown rooms: on a `UserMessage` or `UserJoinedRoom` event whose room is not a
key of room_data_map it panics (`unwrap` on a missing entry, `none` here),
whereas `RoomParticipation` and `HistoryResponse` events for the same unknown
room are silently ignored, leaving the state unchanged. -/
theorem handle_server_event_unknown_room_not_uniform :
    State.handle_server_event clientState0 (Event.UserMessage ⟨"r", "u", "c"⟩) = none ∧
    State.handle_server_event clientState0 (Event.UserJoinedRoom ⟨"r", ["u"]⟩) = none ∧
    State.handle_server_event clientState0
      (Event.RoomParticipation ⟨"u", "r", RoomParticipationStatus.Joined⟩) = some clientState0 ∧
    State.handle_server_event clientState0 (Event.HistoryResponse ⟨"r", []⟩) =
      some clientState0 :=
  ⟨rfl, rfl, rfl, rfl⟩

/-! ### Concrete fixtures and witnesses -/

/-- A concrete identity. -/
def sid0 : SessionAndUserId := ⟨"s1", "alice"⟩

/-- A concrete membership handle for room "general". -/
def handle0 : UserSessionHandle := ⟨"general", sid0⟩

/-- A session with no joined rooms. -/
def st0 : ChatSession := ⟨sid0, []⟩

/-- A session that has joined room "general". -/
def stJoined : ChatSession := ⟨sid0, [("general", handle0)]⟩

/-- A room-manager environment whose calls all succeed. -/
def okEnv : RoomManagerEnv :=
  ⟨fun room s => Except.ok (⟨room, s⟩, [s.user_id]),
   fun _ _ => Except.ok (),
   fun _ => Except.ok [],
   fun _ => Except.ok ()⟩

/-- A room-manager environment whose history-recording call fails. -/
def errEnv : RoomManagerEnv :=
  ⟨fun room s => Except.ok (⟨room, s⟩, [s.user_id]),
   fun _ _ => Except.error "history failed",
   fun _ => Except.ok [],
   fun _ => Except.ok ()⟩

theorem join_room_already_joined_w :
    stJoined.handle_user_command okEnv (UserCommand.JoinRoom "general") =
      ⟨stJoined, [], Except.error (HandlerError.alreadyJoined "general")⟩ :=
  join_room_already_joined okEnv stJoined "general" (by decide)

theorem join_reply_precedes_forwarded_w :
    joinOutbound okEnv st0 "general"
        [RecvResult.ok (Event.UserMessage ⟨"general", "bob", "hi"⟩)] =
      Event.UserJoinedRoom ⟨"general", ["alice"]⟩ ::
        forwardLoop [RecvResult.ok (Event.UserMessage ⟨"general", "bob", "hi"⟩)] :=
  join_reply_precedes_forwarded okEnv st0 "general" ⟨"general", sid0⟩ ["alice"]
    [RecvResult.ok (Event.UserMessage ⟨"general", "bob", "hi"⟩)] rfl rfl

theorem send_message_records_then_publishes_w :
    stJoined.handle_user_command okEnv (UserCommand.SendMessage "general" "hi") =
      ⟨stJoined, [SessionAction.recordHistory handle0 "hi",
                  SessionAction.publish (handle0.send_message "hi")], Except.ok ()⟩ ∧
    stJoined.handle_user_command errEnv (UserCommand.SendMessage "general" "hi") =
      ⟨stJoined, [SessionAction.recordHistory handle0 "hi"],
       Except.error (HandlerError.envError "history failed")⟩ :=
  ⟨(send_message_records_then_publishes okEnv stJoined "general" "hi" handle0 (by decide)).1
      rfl,
   (send_message_records_then_publishes errEnv stJoined "general" "hi" handle0 (by decide)).2
      "history failed" rfl⟩

theorem not_joined_commands_are_noops_w :
    st0.handle_user_command okEnv (UserCommand.SendMessage "general" "hi") =
      ⟨st0, [], Except.ok ()⟩ ∧
    st0.handle_user_command okEnv (UserCommand.GetHistory "general") =
      ⟨st0, [], Except.ok ()⟩ :=
  not_joined_commands_are_noops okEnv st0 "general" "hi" rfl

theorem leave_all_rooms_cleanup_w :
    (stJoined.leave_all_rooms okEnv).state.joined_rooms = [] ∧
    SessionAction.dropHandle handle0 ∈ (stJoined.leave_all_rooms okEnv).actions ∧
    SessionAction.abortTask "general" ∈ (stJoined.leave_all_rooms okEnv).actions := by
  have h := leave_all_rooms_cleanup okEnv stJoined (by rfl)
  have hm := h.2 ("general", handle0) (by simp [stJoined])
  exact ⟨h.1, hm.1, hm.2⟩

end RustChat
